import Mathlib

/-!
Verification of the real-time group messaging subsystem of the NextUp server
(`src/server/routes.ts`): the in-memory connection registry
(`wsClients : Map<string, Set<ws>>`), the fan-out primitive `broadcastToGroup`,
the WebSocket `message`/`close` handlers, and the message-posting route
`POST /api/groups/:id/messages`.

The embedding is shallow: the JS `Map`/`Set` pair is modelled as an association
list of groups to insertion-ordered duplicate-free connection lists, JSON values
as an inductive `Json` with JavaScript truthiness and `String(...)` coercion,
the throwing external storage calls as `Except`-valued fields of a `Store`
record, and a throwing per-connection `send` as a boolean failure oracle
`fails : ConnId → Bool` (the `try { c.send(msg) } catch {}` in the source
swallows the throw; the oracle decides which sends throw).
-/

namespace NextUp

/-- Opaque identifier for one live WebSocket connection (the `ws` object). -/
abbrev ConnId := Nat

/-- A JavaScript value produced by `JSON.parse`. Numbers are modelled as
integers (no claim here depends on non-integral numbers); objects are
field lists, duplicate keys already resolved by the parser. -/
inductive Json where
  | null
  | bool (b : Bool)
  | num (n : Int)
  | str (s : String)
  | arr (elems : List Json)
  | obj (fields : List (String × Json))
deriving Repr

/-- JavaScript truthiness of a value: `null`, `false`, `0` and `""` are falsy;
every object and array is truthy. -/
def Json.truthy : Json → Bool
  | .null => false
  | .bool b => b
  | .num n => n != 0
  | .str s => s != ""
  | .arr _ => true
  | .obj _ => true

/-- Field lookup on a field list, as JS property access on a parsed object. -/
def lookupField : List (String × Json) → String → Option Json
  | [], _ => none
  | (k, v) :: rest, key => if k == key then some v else lookupField rest key

/-- JS property access `j.key`: `none` stands for `undefined` (absent field, or
access on a non-object value — on truthy primitives JS yields `undefined`
rather than throwing; the handler only reaches field access on truthy values). -/
def Json.getField : Json → String → Option Json
  | .obj fields, key => lookupField fields key
  | _, _ => none

mutual

/-- JavaScript `String(v)` coercion: `null → "null"`, booleans and numbers to
their decimal text, arrays join their elements with `","` (a `null` element
becomes the empty string), plain objects become `"[object Object]"`. -/
def jsToString : Json → String
  | .null => "null"
  | .bool true => "true"
  | .bool false => "false"
  | .num n => toString n
  | .str s => s
  | .arr elems => joinElems elems
  | .obj _ => "[object Object]"

/-- Array stringification: elements joined by `","`. -/
def joinElems : List Json → String
  | [] => ""
  | [x] => elemToString x
  | x :: y :: rest => elemToString x ++ "," ++ joinElems (y :: rest)

/-- Inside `Array.prototype.toString`, a `null` element stringifies to `""`. -/
def elemToString : Json → String
  | .null => ""
  | j => jsToString j

end

/-- Test `parsed.type === "subscribe"` (strict equality against a string literal:
true only when the field is that exact string). -/
def isType (j : Json) (t : String) : Bool :=
  match j.getField "type" with
  | some (.str s) => s == t
  | _ => false

/-- Truthiness of `parsed.key`, with `undefined` falsy. -/
def fieldTruthy (j : Json) (key : String) : Bool :=
  match j.getField key with
  | some v => v.truthy
  | none => false

/-- The value `String(parsed.groupId)` computed by both handler branches
(only reached when the field is present and truthy). -/
def groupIdOf (j : Json) : String :=
  jsToString ((j.getField "groupId").getD .null)

/-- One persisted chat message, as returned by `storage.createMessage`. -/
structure Message where
  id : String
  groupId : String
  senderId : String
  content : String
  createdAt : Nat
deriving DecidableEq, Repr

/-- An outbound WebSocket frame: the `{type:"subscribed",groupId}` acknowledgment
or the `{type:"message",message}` broadcast payload. -/
inductive Frame where
  | subscribed (groupId : String)
  | message (m : Message)
deriving DecidableEq, Repr

/-- The registry: `const wsClients = new Map<string, Set<any>>()`. A `Map` is an
insertion-ordered association list; a `Set` is an insertion-ordered
duplicate-free list of connections. -/
structure Registry where
  wsClients : List (String × List ConnId)
deriving DecidableEq, Repr

/-- `wsClients.get(k)` — first-match lookup (keys are unique in a JS `Map`). -/
def mapGet (m : List (String × List ConnId)) (k : String) : Option (List ConnId) :=
  match m with
  | [] => none
  | (k', v) :: rest => if k' == k then some v else mapGet rest k

/-- `wsClients.set(k, v)` — replace the value in place when the key exists,
otherwise append a new entry. -/
def mapSet (m : List (String × List ConnId)) (k : String) (v : List ConnId) :
    List (String × List ConnId) :=
  match m with
  | [] => [(k, v)]
  | (k', v') :: rest => if k' == k then (k', v) :: rest else (k', v') :: mapSet rest k v

/-- `set.add(c)` — appends `c` unless already present. -/
def setAdd (s : List ConnId) (c : ConnId) : List ConnId :=
  if c ∈ s then s else s ++ [c]

/-- `set.delete(c)` — removes `c` if present. -/
def setDelete (s : List ConnId) (c : ConnId) : List ConnId :=
  s.erase c

/-- The subscriber set the fan-out reads for a group: the set under the group's
map entry, or empty when there is no entry. -/
def subsOf (reg : Registry) (g : String) : List ConnId :=
  (mapGet reg.wsClients g).getD []

/-- The empty registry, the state at server start. -/
def emptyRegistry : Registry := ⟨[]⟩

/-- A single `c.send(msg)` on the wire: throws exactly when the failure oracle
says this connection's transport is broken. -/
def sendRaw (fails : ConnId → Bool) (c : ConnId) : Except Unit Unit :=
  if fails c then .error () else .ok ()

/-- Record of one delivery attempt made by the fan-out loop: which connection,
which frame, and whether the transport send succeeded. -/
structure SendAttempt where
  conn : ConnId
  frame : Frame
  ok : Bool
deriving DecidableEq, Repr

/-- One iteration of the fan-out loop body,
`try { c.send(msg) } catch (err) { /* ignore */ }`: the attempt is made either
way and a thrown send error is swallowed on the spot. -/
def sendStep (fails : ConnId → Bool) (f : Frame) (c : ConnId) : SendAttempt :=
  match sendRaw fails c with
  | .ok _ => { conn := c, frame := f, ok := true }
  | .error _ => { conn := c, frame := f, ok := false }

/-- The source's `broadcastToGroup(groupId, payload)` (routes.ts:13-24): read the
group's client set (return silently when absent), then attempt one send per
client over a snapshot (`Array.from(clients)`). The registry is returned
unchanged — the function only reads `wsClients` — and the function itself
never throws: each send's failure is caught inside the loop body. -/
def broadcastToGroup (reg : Registry) (groupId : String) (payload : Frame)
    (fails : ConnId → Bool) : Registry × List SendAttempt :=
  match mapGet reg.wsClients groupId with
  | none => (reg, [])
  | some clients => (reg, clients.map (sendStep fails payload))

/-- The condition `parsed && parsed.type === "subscribe" && parsed.groupId`
guarding the subscribe branch. -/
def subGuard (parsed : Json) : Bool :=
  parsed.truthy && isType parsed "subscribe" && fieldTruthy parsed "groupId"

/-- The condition `parsed && parsed.type === "unsubscribe" && parsed.groupId`
guarding the unsubscribe branch. -/
def unsubGuard (parsed : Json) : Bool :=
  parsed.truthy && isType parsed "unsubscribe" && fieldTruthy parsed "groupId"

/-- The ws `message` handler (routes.ts:828-849). The input is the result of
`JSON.parse(String(data))`, with `none` for a parse failure (the throw is
caught by the surrounding `try`, which also swallows a throwing
acknowledgment send). Returns the new registry and the outbound frames the
handler attempts to send back on this connection; it has no way to close
the connection or touch any other connection's state. -/
def wsOnMessage (reg : Registry) (ws : ConnId) (data : Option Json) :
    Registry × List (ConnId × Frame) :=
  match data with
  | none => (reg, [])
  | some parsed =>
    if subGuard parsed then
      let groupId := groupIdOf parsed
      let set := (mapGet reg.wsClients groupId).getD []
      (⟨mapSet reg.wsClients groupId (setAdd set ws)⟩, [(ws, .subscribed groupId)])
    else if unsubGuard parsed then
      let groupId := groupIdOf parsed
      match mapGet reg.wsClients groupId with
      | some set => (⟨mapSet reg.wsClients groupId (setDelete set ws)⟩, [])
      | none => (reg, [])
    else (reg, [])

/-- Treatment of one map entry by the ws `close` handler: remove the closing
connection from the set when present, and drop the whole entry when the set
becomes empty. -/
def closeEntry (ws : ConnId) (e : String × List ConnId) : Option (String × List ConnId) :=
  if ws ∈ e.2 then
    let s := setDelete e.2 ws
    if s.isEmpty then none else some (e.1, s)
  else some e

/-- The ws `close` handler (routes.ts:851-859): iterate over a snapshot of all
entries, delete the connection from each set holding it, and delete a group
entry whose set it empties. -/
def wsOnClose (reg : Registry) (ws : ConnId) : Registry :=
  ⟨reg.wsClients.filterMap (closeEntry ws)⟩

/-- A group row from the relational store (`storage.getGroup`). -/
structure Group where
  id : String
  ownerId : String
deriving DecidableEq, Repr

/-- A membership row from the relational store (`storage.getGroupMembers`). -/
structure GroupMember where
  memberId : String
deriving DecidableEq, Repr

/-- The external storage collaborator as used by the message-post route. Each
field models one awaited call that may throw (`Except.error`). -/
structure Store where
  getGroup : String → Except Unit (Option Group)
  getGroupMembers : String → Except Unit (List GroupMember)
  createMessage : String → String → String → Except Unit Message

/-- HTTP outcome of `POST /api/groups/:id/messages`. -/
inductive PostResult where
  | notFound
  | forbidden
  | badRequest (error : String)
  | created (m : Message)
deriving DecidableEq, Repr

/-- The message-post route (routes.ts:621-650): look up the group (404 when
absent), check ownership or membership (403), validate `content` (`!content`
or non-string gives 400), persist via `storage.createMessage`, then — only
on success — broadcast `{type:"message",message}` and answer 201. Any throw
from a storage call lands in the outer catch and answers 400
`"Failed to create message"`. The route never writes to `wsClients`; the
registry is read by the broadcast only, and is returned unchanged. -/
def postGroupMessage (reg : Registry) (st : Store) (groupId : String)
    (userId : String) (content : Json) (fails : ConnId → Bool) :
    Registry × PostResult × List SendAttempt :=
  match st.getGroup groupId with
  | .error _ => (reg, .badRequest "Failed to create message", [])
  | .ok none => (reg, .notFound, [])
  | .ok (some group) =>
    match st.getGroupMembers groupId with
    | .error _ => (reg, .badRequest "Failed to create message", [])
    | .ok members =>
      let isMember := group.ownerId == userId || members.any (fun m => m.memberId == userId)
      if !isMember then (reg, .forbidden, [])
      else if !(content.truthy && (match content with | .str _ => true | _ => false)) then
        (reg, .badRequest "content is required", [])
      else
        match st.createMessage groupId userId (jsToString content) with
        | .error _ => (reg, .badRequest "Failed to create message", [])
        | .ok message =>
          let (reg', attempts) := broadcastToGroup reg groupId (.message message) fails
          (reg', .created message, attempts)

/-- One event against the shared registry: an inbound ws frame from a
connection (`none` = unparseable), a transport close, or a fan-out call. -/
inductive Event where
  | wsMessage (c : ConnId) (data : Option Json)
  | close (c : ConnId)
  | publish (g : String) (payload : Frame) (fails : ConnId → Bool)

/-- Effect of one event on the registry. -/
def step (reg : Registry) : Event → Registry
  | .wsMessage c d => (wsOnMessage reg c d).1
  | .close c => wsOnClose reg c
  | .publish g payload fails => (broadcastToGroup reg g payload fails).1

/-- Run a sequence of events from a starting registry state. -/
def run (reg : Registry) (t : List Event) : Registry :=
  t.foldl step reg

/-- The inbound frame `{"type":"subscribe","groupId":"<g>"}`. -/
def subFrame (g : String) : Json :=
  .obj [("type", .str "subscribe"), ("groupId", .str g)]

/-- The inbound frame `{"type":"unsubscribe","groupId":"<g>"}`. -/
def unsubFrame (g : String) : Json :=
  .obj [("type", .str "unsubscribe"), ("groupId", .str g)]

/-- Whether an event is an unsubscribe of connection `c` from group `g` that the
handler would act on: a parsed frame from `c` taking the unsubscribe branch
with coerced group identifier `g`. -/
def isUnsubFor (c : ConnId) (g : String) : Event → Bool
  | .wsMessage c' (some j) => c' == c && unsubGuard j && groupIdOf j == g
  | _ => false

/-- Whether an event originates from connection `c` itself (an inbound frame or
its transport close) — after `c`'s close, the transport emits none of these. -/
def eventFrom (c : ConnId) : Event → Bool
  | .wsMessage c' _ => c' == c
  | .close c' => c' == c
  | .publish _ _ _ => false

/-- Registry well-formedness: every map entry holds a duplicate-free connection
set and map keys are unique — as for a JS `Map` of `Set`s. -/
def WF (reg : Registry) : Prop :=
  (∀ p ∈ reg.wsClients, p.2.Nodup) ∧ (reg.wsClients.map Prod.fst).Nodup

/-- The ws `message` handler in its ambient context: the installed closure
captures the server's `storage` collaborator, but its body (routes.ts:828-849)
never consults it — no membership or authorization call appears on the
subscribe path. -/
def wsOnMessageWithStore (st : Store) (reg : Registry) (ws : ConnId)
    (data : Option Json) : Registry × List (ConnId × Frame) :=
  wsOnMessage reg ws data

/-- Classifier for the frames the (amended) tolerance policy drops: malformed
JSON, values that are not truthy or carry no recognized `type`, and
subscribe/unsubscribe frames whose `groupId` is absent or falsy (`null`,
`false`, `0`, `""`). -/
def droppedFrame : Option Json → Bool
  | none => true
  | some j =>
    !j.truthy ||
      (!(isType j "subscribe") && !(isType j "unsubscribe")) ||
      ((isType j "subscribe" || isType j "unsubscribe") && !fieldTruthy j "groupId")

/-- Concrete message used in witnesses. -/
def mW : Message := ⟨"m1", "g1", "u1", "hi", 0⟩

/-- Failure oracle under which no transport send throws. -/
def noFail : ConnId → Bool := fun _ => false

/-- Failure oracle under which exactly connection 0's transport throws. -/
def failsW : ConnId → Bool := fun c => c == 0

/-- Registry used in witnesses: connections 0 and 1 subscribed to "g1". -/
def regW : Registry := ⟨[("g1", [0, 1])]⟩

/-- Registry used in witnesses: connection 0 alone subscribed to "g1". -/
def regW1 : Registry := ⟨[("g1", [0])]⟩

/-- Store used in witnesses: group "g1" owned by "u1", no other members, and a
persistence layer whose `createMessage` always throws. -/
def stFailW : Store :=
  ⟨fun _ => .ok (some ⟨"g1", "u1"⟩), fun _ => .ok [], fun _ _ _ => .error ()⟩

/-- Store used in witnesses: like `stFailW` but persistence succeeds, assigning
identifier "m1" and timestamp 5. -/
def stOkW : Store :=
  ⟨fun _ => .ok (some ⟨"g1", "u1"⟩), fun _ => .ok [],
    fun g u s => .ok ⟨"m1", g, u, s, 5⟩⟩

/-! Lemmas about the map and set primitives. -/

theorem mapGet_mapSet_same (m : List (String × List ConnId)) (k : String) (v : List ConnId) :
    mapGet (mapSet m k v) k = some v := by
  induction m with
  | nil => simp [mapGet, mapSet]
  | cons p rest ih =>
    obtain ⟨k', v'⟩ := p
    by_cases h : k' = k
    · simp [mapGet, mapSet, h]
    · simp only [mapSet, mapGet, beq_iff_eq, if_neg h]
      exact ih

theorem mapGet_mapSet_other (m : List (String × List ConnId)) (k k' : String)
    (v : List ConnId) (h : k' ≠ k) : mapGet (mapSet m k v) k' = mapGet m k' := by
  induction m with
  | nil => simp [mapGet, mapSet, beq_iff_eq, Ne.symm h]
  | cons p rest ih =>
    obtain ⟨k₀, v₀⟩ := p
    by_cases h₀ : k₀ = k
    · subst h₀
      simp [mapGet, mapSet, beq_iff_eq, Ne.symm h]
    · simp only [mapSet, mapGet, beq_iff_eq, if_neg h₀]
      by_cases h₁ : k₀ = k'
      · simp [h₁]
      · simp only [if_neg h₁]
        exact ih

theorem mapSet_self (m : List (String × List ConnId)) (k : String) (v : List ConnId)
    (h : mapGet m k = some v) : mapSet m k v = m := by
  induction m with
  | nil => simp [mapGet] at h
  | cons p rest ih =>
    obtain ⟨k₀, v₀⟩ := p
    by_cases h₀ : k₀ = k
    · simp only [mapGet, beq_iff_eq, if_pos h₀, Option.some.injEq] at h
      simp [mapSet, beq_iff_eq, h₀, h]
    · simp only [mapGet, beq_iff_eq, if_neg h₀] at h
      simp [mapSet, beq_iff_eq, h₀, ih h]

theorem mem_setAdd_iff (s : List ConnId) (c c' : ConnId) :
    c ∈ setAdd s c' ↔ c ∈ s ∨ c = c' := by
  unfold setAdd
  by_cases h : c' ∈ s
  · simp only [if_pos h]
    constructor
    · exact Or.inl
    · rintro (hc | rfl)
      · exact hc
      · exact h
  · simp [if_neg h]

theorem setAdd_of_mem (s : List ConnId) (c : ConnId) (h : c ∈ s) : setAdd s c = s := by
  simp [setAdd, h]

theorem setAdd_nodup (s : List ConnId) (c : ConnId) (h : s.Nodup) : (setAdd s c).Nodup := by
  unfold setAdd
  by_cases hc : c ∈ s
  · simpa [hc]
  · simp [hc, List.nodup_append, h]

theorem mem_setAdd_self (s : List ConnId) (c : ConnId) : c ∈ setAdd s c := by
  simp [mem_setAdd_iff]

/-! Lemmas about `wsOnClose`. -/

theorem closeEntry_key (ws : ConnId) (e e' : String × List ConnId)
    (h : closeEntry ws e = some e') : e'.1 = e.1 ∧ (e'.2 = setDelete e.2 ws ∨ e'.2 = e.2) := by
  unfold closeEntry at h
  by_cases hm : ws ∈ e.2
  · simp only [if_pos hm] at h
    by_cases he : (setDelete e.2 ws).isEmpty
    · simp [he] at h
    · simp only [he, Bool.false_eq_true, if_neg, ite_false] at h
      cases h
      exact ⟨rfl, Or.inl rfl⟩
  · simp only [if_neg hm] at h
    cases h
    exact ⟨rfl, Or.inr rfl⟩

theorem mapGet_eq_none_of_not_mem_keys (m : List (String × List ConnId)) (k : String)
    (h : k ∉ m.map Prod.fst) : mapGet m k = none := by
  induction m with
  | nil => simp [mapGet]
  | cons p rest ih =>
    obtain ⟨k', v⟩ := p
    simp only [List.map_cons, List.mem_cons, not_or] at h
    simp only [mapGet, beq_iff_eq, if_neg (fun he : k' = k => h.1 he.symm)]
    exact ih h.2

theorem keys_filterMap_closeEntry_subset (m : List (String × List ConnId)) (ws : ConnId)
    (k : String) (h : k ∈ (m.filterMap (closeEntry ws)).map Prod.fst) :
    k ∈ m.map Prod.fst := by
  induction m with
  | nil => simp at h
  | cons p rest ih =>
    match hce : closeEntry ws p with
    | none =>
      simp only [List.filterMap_cons, hce] at h
      exact List.mem_cons_of_mem _ (ih h)
    | some e' =>
      simp only [List.filterMap_cons, hce, List.map_cons, List.mem_cons] at h
      rcases h with h | h
      · exact List.mem_cons.mpr (Or.inl (h.trans (closeEntry_key ws p e' hce).1))
      · exact List.mem_cons_of_mem _ (ih h)

/-- Under unique keys, the `close` handler's effect on one group's entry:
the entry's set loses `ws`, and the entry disappears when that empties it. -/
theorem mapGet_wsOnClose (reg : Registry) (ws : ConnId) (g : String)
    (hk : (reg.wsClients.map Prod.fst).Nodup) :
    mapGet (wsOnClose reg ws).wsClients g =
      (mapGet reg.wsClients g).bind (fun s => (closeEntry ws (g, s)).map Prod.snd) := by
  obtain ⟨m⟩ := reg
  simp only [wsOnClose]
  induction m with
  | nil => simp [mapGet]
  | cons p rest ih =>
    obtain ⟨k, s⟩ := p
    simp only [List.map_cons, List.nodup_cons] at hk
    obtain ⟨hknotin, hkrest⟩ := hk
    by_cases hkg : k = g
    · subst hkg
      match hce : closeEntry ws (k, s) with
      | none =>
        simp only [List.filterMap_cons, hce, mapGet, beq_iff_eq, if_pos rfl, Option.some_bind]
        have hnone : mapGet (rest.filterMap (closeEntry ws)) k = none := by
          refine mapGet_eq_none_of_not_mem_keys _ _ (fun hmem => hknotin ?_)
          exact keys_filterMap_closeEntry_subset rest ws k hmem
        simp [hnone, hce]
      | some e' =>
        have he := closeEntry_key ws (k, s) e' hce
        obtain ⟨e1, e2⟩ := e'
        simp only at he
        have he1 : e1 = k := he.1
        subst he1
        simp [List.filterMap_cons, hce, mapGet]
    · match hce : closeEntry ws (k, s) with
      | none =>
        simp only [List.filterMap_cons, hce, mapGet, beq_iff_eq, if_neg hkg]
        exact ih hkrest
      | some e' =>
        have he := closeEntry_key ws (k, s) e' hce
        obtain ⟨e1, e2⟩ := e'
        simp only at he
        simp only [List.filterMap_cons, hce, mapGet, beq_iff_eq, he.1, if_neg hkg]
        exact ih hkrest

/-! Characterizations of the `message` handler's three outcomes. -/

theorem isType_exclusive (j : Json) :
    ¬(isType j "subscribe" = true ∧ isType j "unsubscribe" = true) := by
  rintro ⟨h1, h2⟩
  unfold isType at h1 h2
  match hj : j.getField "type" with
  | none => rw [hj] at h1; simp at h1
  | some .null => rw [hj] at h1; simp at h1
  | some (.bool b) => rw [hj] at h1; simp at h1
  | some (.num n) => rw [hj] at h1; simp at h1
  | some (.str s) =>
    rw [hj] at h1 h2
    simp only [beq_iff_eq] at h1 h2
    rw [h1] at h2
    exact absurd h2 (by decide)
  | some (.arr xs) => rw [hj] at h1; simp at h1
  | some (.obj fs) => rw [hj] at h1; simp at h1

theorem subGuard_eq_false_of_unsub (j : Json) (h : unsubGuard j = true) :
    subGuard j = false := by
  unfold subGuard
  unfold unsubGuard at h
  simp only [Bool.and_eq_true] at h
  rcases hs : isType j "subscribe" with _ | _
  · simp
  · exact absurd ⟨hs, h.1.2⟩ (isType_exclusive j)

theorem wsOnMessage_none_eq (reg : Registry) (c : ConnId) :
    wsOnMessage reg c none = (reg, []) := rfl

theorem wsOnMessage_sub_eq (reg : Registry) (c : ConnId) (j : Json)
    (h : subGuard j = true) :
    wsOnMessage reg c (some j) =
      (⟨mapSet reg.wsClients (groupIdOf j)
          (setAdd ((mapGet reg.wsClients (groupIdOf j)).getD []) c)⟩,
        [(c, .subscribed (groupIdOf j))]) := by
  simp [wsOnMessage, h]

theorem wsOnMessage_unsub_some_eq (reg : Registry) (c : ConnId) (j : Json)
    (s : List ConnId) (h : unsubGuard j = true)
    (hm : mapGet reg.wsClients (groupIdOf j) = some s) :
    wsOnMessage reg c (some j) =
      (⟨mapSet reg.wsClients (groupIdOf j) (setDelete s c)⟩, []) := by
  simp [wsOnMessage, subGuard_eq_false_of_unsub j h, h, hm]

theorem wsOnMessage_unsub_none_eq (reg : Registry) (c : ConnId) (j : Json)
    (h : unsubGuard j = true) (hm : mapGet reg.wsClients (groupIdOf j) = none) :
    wsOnMessage reg c (some j) = (reg, []) := by
  simp [wsOnMessage, subGuard_eq_false_of_unsub j h, h, hm]

theorem wsOnMessage_dropped_eq (reg : Registry) (c : ConnId) (j : Json)
    (h1 : subGuard j = false) (h2 : unsubGuard j = false) :
    wsOnMessage reg c (some j) = (reg, []) := by
  simp [wsOnMessage, h1, h2]

/-! Well-formedness is preserved by every event. -/

theorem mapGet_mem (m : List (String × List ConnId)) (k : String) (s : List ConnId)
    (h : mapGet m k = some s) : (k, s) ∈ m := by
  induction m with
  | nil => simp [mapGet] at h
  | cons p rest ih =>
    obtain ⟨k', v⟩ := p
    by_cases hk : k' = k
    · subst hk
      simp only [mapGet, beq_self_eq_true, if_pos, Option.some.injEq] at h
      subst h
      exact List.mem_cons_self _ _
    · simp only [mapGet, beq_iff_eq, if_neg hk] at h
      exact List.mem_cons_of_mem _ (ih h)

theorem mem_mapSet (m : List (String × List ConnId)) (k : String) (v : List ConnId)
    (p : String × List ConnId) (h : p ∈ mapSet m k v) : p ∈ m ∨ p.2 = v := by
  induction m with
  | nil =>
    simp only [mapSet, List.mem_singleton] at h
    exact Or.inr (by rw [h])
  | cons q rest ih =>
    obtain ⟨k', v'⟩ := q
    by_cases hk : k' = k
    · simp only [mapSet, beq_iff_eq, if_pos hk, List.mem_cons] at h
      rcases h with h | h
      · exact Or.inr (by rw [h])
      · exact Or.inl (List.mem_cons_of_mem _ h)
    · simp only [mapSet, beq_iff_eq, if_neg hk, List.mem_cons] at h
      rcases h with h | h
      · exact Or.inl (h ▸ List.mem_cons_self _ _)
      · rcases ih h with h' | h'
        · exact Or.inl (List.mem_cons_of_mem _ h')
        · exact Or.inr h'

theorem keys_mapSet_of_some (m : List (String × List ConnId)) (k : String)
    (v s : List ConnId) (h : mapGet m k = some s) :
    (mapSet m k v).map Prod.fst = m.map Prod.fst := by
  induction m with
  | nil => simp [mapGet] at h
  | cons q rest ih =>
    obtain ⟨k', v'⟩ := q
    by_cases hk : k' = k
    · simp [mapSet, beq_iff_eq, hk]
    · simp only [mapGet, beq_iff_eq, if_neg hk] at h
      simp [mapSet, beq_iff_eq, if_neg hk, ih h]

theorem keys_mapSet_of_none (m : List (String × List ConnId)) (k : String)
    (v : List ConnId) (h : mapGet m k = none) :
    (mapSet m k v).map Prod.fst = m.map Prod.fst ++ [k] := by
  induction m with
  | nil => simp [mapSet]
  | cons q rest ih =>
    obtain ⟨k', v'⟩ := q
    by_cases hk : k' = k
    · simp [mapGet, beq_iff_eq, hk] at h
    · simp only [mapGet, beq_iff_eq, if_neg hk] at h
      simp [mapSet, beq_iff_eq, if_neg hk, ih h]

theorem not_mem_keys_of_mapGet_none (m : List (String × List ConnId)) (k : String)
    (h : mapGet m k = none) : k ∉ m.map Prod.fst := by
  induction m with
  | nil => simp
  | cons q rest ih =>
    obtain ⟨k', v'⟩ := q
    by_cases hk : k' = k
    · simp [mapGet, beq_iff_eq, hk] at h
    · simp only [mapGet, beq_iff_eq, if_neg hk] at h
      simp only [List.map_cons, List.mem_cons, not_or]
      exact ⟨fun he => hk he.symm, ih h⟩

/-- The map-update performed by either handler branch keeps the registry
well-formed, provided the inserted set is duplicate-free. -/
theorem wf_mapSet (reg : Registry) (k : String) (v : List ConnId)
    (h : WF reg) (hv : v.Nodup) : WF ⟨mapSet reg.wsClients k v⟩ := by
  constructor
  · intro p hp
    rcases mem_mapSet reg.wsClients k v p hp with h' | h'
    · exact h.1 p h'
    · rw [h']; exact hv
  · match hm : mapGet reg.wsClients k with
    | some s =>
      rw [keys_mapSet_of_some reg.wsClients k v s hm]
      exact h.2
    | none =>
      rw [keys_mapSet_of_none reg.wsClients k v hm]
      have hk : k ∉ reg.wsClients.map Prod.fst :=
        not_mem_keys_of_mapGet_none reg.wsClients k hm
      simp [List.nodup_append, h.2, hk, List.disjoint_singleton]

theorem getD_nodup (reg : Registry) (g : String) (h : WF reg) :
    ((mapGet reg.wsClients g).getD []).Nodup := by
  match hm : mapGet reg.wsClients g with
  | some s => exact h.1 (g, s) (mapGet_mem reg.wsClients g s hm)
  | none => simp

theorem wf_wsOnMessage (reg : Registry) (c : ConnId) (d : Option Json) (h : WF reg) :
    WF (wsOnMessage reg c d).1 := by
  match d with
  | none => exact h
  | some j =>
    rcases hs : subGuard j with _ | _
    · rcases hu : unsubGuard j with _ | _
      · rw [wsOnMessage_dropped_eq reg c j hs hu]; exact h
      · match hm : mapGet reg.wsClients (groupIdOf j) with
        | some s =>
          rw [wsOnMessage_unsub_some_eq reg c j s hu hm]
          exact wf_mapSet reg _ _ h
            ((h.1 (groupIdOf j, s) (mapGet_mem _ _ _ hm)).erase c)
        | none =>
          rw [wsOnMessage_unsub_none_eq reg c j hu hm]; exact h
    · rw [wsOnMessage_sub_eq reg c j hs]
      exact wf_mapSet reg _ _ h (setAdd_nodup _ c (getD_nodup reg _ h))

theorem keys_wsOnClose_sublist (m : List (String × List ConnId)) (ws : ConnId) :
    ((m.filterMap (closeEntry ws)).map Prod.fst).Sublist (m.map Prod.fst) := by
  induction m with
  | nil => simp
  | cons p rest ih =>
    match hce : closeEntry ws p with
    | none =>
      simp only [List.filterMap_cons, hce, List.map_cons]
      exact ih.cons _
    | some e' =>
      simp only [List.filterMap_cons, hce, List.map_cons, (closeEntry_key ws p e' hce).1]
      exact ih.cons₂ _

theorem wf_wsOnClose (reg : Registry) (c : ConnId) (h : WF reg) : WF (wsOnClose reg c) := by
  constructor
  · intro p hp
    simp only [wsOnClose, List.mem_filterMap] at hp
    obtain ⟨q, hq, hce⟩ := hp
    rcases (closeEntry_key c q p hce).2 with h' | h'
    · rw [h']; exact (h.1 q hq).erase c
    · rw [h']; exact h.1 q hq
  · exact (keys_wsOnClose_sublist reg.wsClients c).nodup h.2

theorem wf_step (reg : Registry) (e : Event) (h : WF reg) : WF (step reg e) := by
  match e with
  | .wsMessage c d => exact wf_wsOnMessage reg c d h
  | .close c => exact wf_wsOnClose reg c h
  | .publish g p fails =>
    show WF (broadcastToGroup reg g p fails).1
    unfold broadcastToGroup
    match mapGet reg.wsClients g with
    | none => exact h
    | some clients => exact h

theorem wf_run (reg : Registry) (t : List Event) (h : WF reg) : WF (run reg t) := by
  induction t generalizing reg with
  | nil => exact h
  | cons e rest ih => exact ih (step reg e) (wf_step reg e h)

theorem wf_empty : WF emptyRegistry := by
  constructor <;> simp [emptyRegistry]

/-! The fan-out in closed form, and how each event moves one group's set. -/

theorem sendStep_eq (fails : ConnId → Bool) (f : Frame) (c : ConnId) :
    sendStep fails f c = { conn := c, frame := f, ok := !fails c } := by
  unfold sendStep sendRaw
  by_cases h : fails c <;> simp [h]

theorem broadcastToGroup_eq (reg : Registry) (g : String) (p : Frame)
    (fails : ConnId → Bool) :
    broadcastToGroup reg g p fails = (reg, (subsOf reg g).map (sendStep fails p)) := by
  unfold broadcastToGroup subsOf
  match mapGet reg.wsClients g with
  | none => simp
  | some clients => simp

theorem subsOf_after_sub_same (reg : Registry) (c : ConnId) (j : Json)
    (hs : subGuard j = true) :
    subsOf (wsOnMessage reg c (some j)).1 (groupIdOf j) =
      setAdd (subsOf reg (groupIdOf j)) c := by
  rw [wsOnMessage_sub_eq reg c j hs]
  simp [subsOf, mapGet_mapSet_same]

theorem subsOf_after_sub_other (reg : Registry) (c : ConnId) (j : Json) (g : String)
    (hs : subGuard j = true) (hg : g ≠ groupIdOf j) :
    subsOf (wsOnMessage reg c (some j)).1 g = subsOf reg g := by
  rw [wsOnMessage_sub_eq reg c j hs]
  simp [subsOf, mapGet_mapSet_other _ _ _ _ hg]

theorem subsOf_after_unsub_same (reg : Registry) (c : ConnId) (j : Json)
    (s : List ConnId) (hu : unsubGuard j = true)
    (hm : mapGet reg.wsClients (groupIdOf j) = some s) :
    subsOf (wsOnMessage reg c (some j)).1 (groupIdOf j) = setDelete s c := by
  rw [wsOnMessage_unsub_some_eq reg c j s hu hm]
  simp [subsOf, mapGet_mapSet_same]

theorem subsOf_after_unsub_other (reg : Registry) (c : ConnId) (j : Json)
    (s : List ConnId) (g : String) (hu : unsubGuard j = true)
    (hm : mapGet reg.wsClients (groupIdOf j) = some s) (hg : g ≠ groupIdOf j) :
    subsOf (wsOnMessage reg c (some j)).1 g = subsOf reg g := by
  rw [wsOnMessage_unsub_some_eq reg c j s hu hm]
  simp [subsOf, mapGet_mapSet_other _ _ _ _ hg]

theorem mem_subsOf_wsOnClose_of_ne (reg : Registry) (ws c : ConnId) (g : String)
    (hk : (reg.wsClients.map Prod.fst).Nodup) (hne : c ≠ ws)
    (hc : c ∈ subsOf reg g) : c ∈ subsOf (wsOnClose reg ws) g := by
  unfold subsOf at hc ⊢
  rw [mapGet_wsOnClose reg ws g hk]
  match hm : mapGet reg.wsClients g with
  | none => rw [hm] at hc; simp at hc
  | some s =>
    rw [hm] at hc
    simp only [Option.getD_some] at hc
    simp only [Option.some_bind]
    unfold closeEntry
    by_cases hwm : ws ∈ s
    · have hce : c ∈ setDelete s ws := (List.mem_erase_of_ne hne).mpr hc
      have hne' : ¬(setDelete s ws).isEmpty := by
        cases he : setDelete s ws with
        | nil => rw [he] at hce; simp at hce
        | cons a l => simp [he]
      simp [hwm, hne', hce]
    · simpa [hwm] using hc

theorem mem_subsOf_of_mem_wsOnClose (reg : Registry) (ws c : ConnId) (g : String)
    (hk : (reg.wsClients.map Prod.fst).Nodup)
    (hc : c ∈ subsOf (wsOnClose reg ws) g) : c ∈ subsOf reg g := by
  unfold subsOf at hc ⊢
  rw [mapGet_wsOnClose reg ws g hk] at hc
  match hm : mapGet reg.wsClients g with
  | none => rw [hm] at hc; simp at hc
  | some s =>
    rw [hm] at hc
    simp only [Option.some_bind] at hc
    unfold closeEntry at hc
    by_cases hwm : ws ∈ s
    · simp only [if_pos hwm] at hc
      by_cases he : (setDelete s ws).isEmpty
      · simp [he] at hc
      · simp only [he, Bool.false_eq_true, ite_false, Option.map_some',
          Option.getD_some] at hc
        simpa using List.mem_of_mem_erase hc
    · simpa [hwm] using hc

theorem not_mem_subsOf_wsOnClose (reg : Registry) (c : ConnId) (hwf : WF reg)
    (g : String) : c ∉ subsOf (wsOnClose reg c) g := by
  unfold subsOf
  rw [mapGet_wsOnClose reg c g hwf.2]
  match hm : mapGet reg.wsClients g with
  | none => simp
  | some s =>
    have hs : s.Nodup := hwf.1 (g, s) (mapGet_mem _ _ _ hm)
    simp only [Option.some_bind]
    unfold closeEntry
    by_cases hcm : c ∈ s
    · by_cases he : (setDelete s c).isEmpty
      · simp [hcm, he]
      · simp only [if_pos hcm, he, Bool.false_eq_true, ite_false, Option.map_some',
          Option.getD_some]
        intro habs
        exact absurd rfl (hs.mem_erase_iff.mp habs).1
    · simp [hcm]

/-- No event except the connection's own acted-on unsubscribe for this group, or
its own transport close, can remove it from the group's subscriber set. -/
theorem mem_subsOf_step (reg : Registry) (c : ConnId) (g : String) (e : Event)
    (hwf : WF reg) (hc : c ∈ subsOf reg g) (h1 : isUnsubFor c g e = false)
    (h2 : e ≠ .close c) : c ∈ subsOf (step reg e) g := by
  match e with
  | .publish g' p fails =>
    show c ∈ subsOf (broadcastToGroup reg g' p fails).1 g
    rw [broadcastToGroup_eq]
    exact hc
  | .close c' =>
    have hne : c ≠ c' := fun h => h2 (by rw [h])
    exact mem_subsOf_wsOnClose_of_ne reg c' c g hwf.2 hne hc
  | .wsMessage c' none => exact hc
  | .wsMessage c' (some j) =>
    show c ∈ subsOf (wsOnMessage reg c' (some j)).1 g
    rcases hs : subGuard j with _ | _
    · rcases hu : unsubGuard j with _ | _
      · rw [wsOnMessage_dropped_eq reg c' j hs hu]; exact hc
      · match hm : mapGet reg.wsClients (groupIdOf j) with
        | none => rw [wsOnMessage_unsub_none_eq reg c' j hu hm]; exact hc
        | some s =>
          by_cases hg : g = groupIdOf j
          · subst hg
            have hcc : c' ≠ c := by
              intro h
              subst h
              simp [isUnsubFor, hu] at h1
            rw [subsOf_after_unsub_same reg c' j s hu hm]
            have hcs : c ∈ s := by
              unfold subsOf at hc
              rw [hm] at hc
              simpa using hc
            exact (List.mem_erase_of_ne (fun h => hcc h.symm)).mpr hcs
          · rw [subsOf_after_unsub_other reg c' j s g hu hm hg]; exact hc
    · by_cases hg : g = groupIdOf j
      · subst hg
        rw [subsOf_after_sub_same reg c' j hs]
        exact (mem_setAdd_iff _ c c').mpr (Or.inl hc)
      · rw [subsOf_after_sub_other reg c' j g hs hg]; exact hc

theorem mem_subsOf_run (reg : Registry) (c : ConnId) (g : String) (t : List Event)
    (hwf : WF reg) (ht : ∀ e ∈ t, isUnsubFor c g e = false ∧ e ≠ .close c)
    (hc : c ∈ subsOf reg g) : c ∈ subsOf (run reg t) g := by
  induction t generalizing reg with
  | nil => exact hc
  | cons e rest ih =>
    have he := ht e (List.mem_cons_self _ _)
    exact ih (step reg e) (wf_step reg e hwf)
      (fun e' h' => ht e' (List.mem_cons_of_mem _ h'))
      (mem_subsOf_step reg c g e hwf hc he.1 he.2)

/-- Once absent from every subscriber set, a connection stays absent under any
event that does not originate from the connection itself. -/
theorem not_mem_subsOf_step (reg : Registry) (c : ConnId) (e : Event)
    (hwf : WF reg) (hc : ∀ g, c ∉ subsOf reg g) (he : eventFrom c e = false) :
    ∀ g, c ∉ subsOf (step reg e) g := by
  intro g
  match e with
  | .publish g' p fails =>
    show c ∉ subsOf (broadcastToGroup reg g' p fails).1 g
    rw [broadcastToGroup_eq]
    exact hc g
  | .close c' =>
    intro habs
    exact hc g (mem_subsOf_of_mem_wsOnClose reg c' c g hwf.2 habs)
  | .wsMessage c' none => exact hc g
  | .wsMessage c' (some j) =>
    have hcc : c' ≠ c := by simpa [eventFrom] using he
    show c ∉ subsOf (wsOnMessage reg c' (some j)).1 g
    rcases hs : subGuard j with _ | _
    · rcases hu : unsubGuard j with _ | _
      · rw [wsOnMessage_dropped_eq reg c' j hs hu]; exact hc g
      · match hm : mapGet reg.wsClients (groupIdOf j) with
        | none => rw [wsOnMessage_unsub_none_eq reg c' j hu hm]; exact hc g
        | some s =>
          by_cases hg : g = groupIdOf j
          · subst hg
            rw [subsOf_after_unsub_same reg c' j s hu hm]
            intro habs
            have hcs : c ∈ s := List.mem_of_mem_erase habs
            refine hc (groupIdOf j) ?_
            unfold subsOf
            rw [hm]
            simpa using hcs
          · rw [subsOf_after_unsub_other reg c' j s g hu hm hg]; exact hc g
    · by_cases hg : g = groupIdOf j
      · subst hg
        rw [subsOf_after_sub_same reg c' j hs]
        intro habs
        rcases (mem_setAdd_iff _ c c').mp habs with h | h
        · exact hc _ h
        · exact hcc h.symm
      · rw [subsOf_after_sub_other reg c' j g hs hg]; exact hc g

theorem not_mem_subsOf_run (reg : Registry) (c : ConnId) (t : List Event)
    (hwf : WF reg) (ht : ∀ e ∈ t, eventFrom c e = false)
    (hc : ∀ g, c ∉ subsOf reg g) : ∀ g, c ∉ subsOf (run reg t) g := by
  induction t generalizing reg with
  | nil => exact hc
  | cons e rest ih =>
    exact ih (step reg e) (wf_step reg e hwf)
      (fun e' h' => ht e' (List.mem_cons_of_mem _ h'))
      (not_mem_subsOf_step reg c e hwf hc (ht e (List.mem_cons_self _ _)))

/-! Evaluation of the two well-formed control frames. -/

theorem subGuard_subFrame (g : String) : subGuard (subFrame g) = (g != "") := by
  simp [subGuard, subFrame, isType, fieldTruthy, Json.getField, lookupField, Json.truthy]

theorem groupIdOf_subFrame (g : String) : groupIdOf (subFrame g) = g := by
  simp [groupIdOf, subFrame, Json.getField, lookupField, jsToString]

theorem unsubGuard_subFrame (g : String) : unsubGuard (subFrame g) = false := by
  simp [unsubGuard, subFrame, isType, Json.getField, lookupField]

theorem unsubGuard_unsubFrame (g : String) : unsubGuard (unsubFrame g) = (g != "") := by
  simp [unsubGuard, unsubFrame, isType, fieldTruthy, Json.getField, lookupField, Json.truthy]

theorem subGuard_unsubFrame (g : String) : subGuard (unsubFrame g) = false := by
  simp [subGuard, unsubFrame, isType, Json.getField, lookupField]

theorem groupIdOf_unsubFrame (g : String) : groupIdOf (unsubFrame g) = g := by
  simp [groupIdOf, unsubFrame, Json.getField, lookupField, jsToString]

/-! Claim theorems. -/

/-- C1: after `Subscribe(C,G)` has added `C` to `G`'s subscriber set, a
subsequent `Publish(G,M)` attempts a send of the frame
`{type:"message",message:M}` to `C`, as long as no acted-on
`Unsubscribe(C,G)` and no `Disconnect(C)` happened in between (arbitrary
other events are allowed in between). -/
theorem c1_subscribe_then_publish_delivers (reg : Registry) (c : ConnId) (g : String)
    (t : List Event) (m : Message) (fails : ConnId → Bool) (hwf : WF reg)
    (hg : g ≠ "") (ht : ∀ e ∈ t, isUnsubFor c g e = false ∧ e ≠ Event.close c) :
    { conn := c, frame := Frame.message m, ok := !fails c } ∈
      (broadcastToGroup (run (wsOnMessage reg c (some (subFrame g))).1 t) g
        (Frame.message m) fails).2 := by
  have hs : subGuard (subFrame g) = true := by
    rw [subGuard_subFrame]
    simpa using hg
  have h1 : c ∈ subsOf (wsOnMessage reg c (some (subFrame g))).1 g := by
    have hsame := subsOf_after_sub_same reg c (subFrame g) hs
    rw [groupIdOf_subFrame] at hsame
    rw [hsame]
    exact mem_setAdd_self _ c
  have hwf1 : WF (wsOnMessage reg c (some (subFrame g))).1 := wf_wsOnMessage reg c _ hwf
  have h2 := mem_subsOf_run _ c g t hwf1 ht h1
  rw [broadcastToGroup_eq]
  rw [← sendStep_eq fails (Frame.message m) c]
  exact List.mem_map_of_mem _ h2

/-- Witness for C1: connection 0 subscribes to "g1" in the empty registry and a
publish to "g1" attempts a send to it. -/
theorem c1_witness :
    { conn := 0, frame := Frame.message mW, ok := !noFail 0 } ∈
      (broadcastToGroup (run (wsOnMessage emptyRegistry 0 (some (subFrame "g1"))).1 []) "g1"
        (Frame.message mW) noFail).2 :=
  c1_subscribe_then_publish_delivers emptyRegistry 0 "g1" [] mW noFail wf_empty
    (by decide) (fun e he => absurd he (List.not_mem_nil e))

/-- C3: when the send to one subscribed connection throws during a publish, the
failure is swallowed where it occurs: a send is still attempted to every
connection in the group's subscriber set — exactly once each, in set order —
every attempt carries the published frame, each attempt's failure is merely
recorded, and the call returns its result normally instead of raising. -/
theorem c3_send_failure_swallowed (reg : Registry) (g : String) (p : Frame)
    (fails : ConnId → Bool) (c0 : ConnId) (h0 : c0 ∈ subsOf reg g)
    (hf : fails c0 = true) :
    ((broadcastToGroup reg g p fails).2.map SendAttempt.conn = subsOf reg g) ∧
      ∀ a ∈ (broadcastToGroup reg g p fails).2, a.frame = p ∧ a.ok = !fails a.conn := by
  rw [broadcastToGroup_eq]
  constructor
  · show ((subsOf reg g).map (sendStep fails p)).map SendAttempt.conn = subsOf reg g
    rw [List.map_map]
    have hcomp : SendAttempt.conn ∘ sendStep fails p = id := by
      funext c
      simp [sendStep_eq]
    rw [hcomp, List.map_id]
  · intro a ha
    simp only [List.mem_map] at ha
    obtain ⟨c, hc, rfl⟩ := ha
    simp [sendStep_eq]

/-- Witness for C3: with connections 0 and 1 subscribed to "g1" and 0's
transport broken, the publish still attempts both sends. -/
theorem c3_witness :
    ((broadcastToGroup regW "g1" (Frame.message mW) failsW).2.map SendAttempt.conn =
        subsOf regW "g1") ∧
      ∀ a ∈ (broadcastToGroup regW "g1" (Frame.message mW) failsW).2,
        a.frame = Frame.message mW ∧ a.ok = !failsW a.conn :=
  c3_send_failure_swallowed regW "g1" (Frame.message mW) failsW 0 (by decide) rfl

/-- C7: a publish during which some subscribed connection's send throws leaves
the registry exactly as it was: the map and every group's subscriber set are
unchanged; the failed connection stays registered. -/
theorem c7_publish_preserves_registry (reg : Registry) (g : String) (p : Frame)
    (fails : ConnId → Bool) (c0 : ConnId) (h0 : c0 ∈ subsOf reg g)
    (hf : fails c0 = true) :
    (broadcastToGroup reg g p fails).1 = reg ∧
      (∀ g', subsOf (broadcastToGroup reg g p fails).1 g' = subsOf reg g') ∧
      c0 ∈ subsOf (broadcastToGroup reg g p fails).1 g := by
  rw [broadcastToGroup_eq]
  exact ⟨rfl, fun g' => rfl, h0⟩

/-- Witness for C7 at the two-subscriber registry with connection 0 failing. -/
theorem c7_witness :
    (broadcastToGroup regW "g1" (Frame.message mW) failsW).1 = regW ∧
      (∀ g', subsOf (broadcastToGroup regW "g1" (Frame.message mW) failsW).1 g' =
        subsOf regW g') ∧
      0 ∈ subsOf (broadcastToGroup regW "g1" (Frame.message mW) failsW).1 "g1" :=
  c7_publish_preserves_registry regW "g1" (Frame.message mW) failsW 0 (by decide) rfl

/-- C8: a publish to `g1` never attempts a send to a connection that is
subscribed only to a different group `g2`. -/
theorem c8_no_cross_group_leakage (reg : Registry) (c : ConnId) (g1 g2 : String)
    (p : Frame) (fails : ConnId → Bool)
    (honly : ∀ g, c ∈ subsOf reg g → g = g2) (hne : g1 ≠ g2) :
    ∀ a ∈ (broadcastToGroup reg g1 p fails).2, a.conn ≠ c := by
  rw [broadcastToGroup_eq]
  intro a ha
  simp only [List.mem_map] at ha
  obtain ⟨c', hc', rfl⟩ := ha
  simp only [sendStep_eq]
  intro h
  rw [h] at hc'
  exact hne (honly g1 hc')

/-- Witness for C8: connection 5 subscribed only to "g2"; a publish to "g1"
attempts one send, to connection 0, and that attempt is not to 5. -/
theorem c8_witness :
    ({ conn := 0, frame := Frame.message mW, ok := true } : SendAttempt).conn ≠ 5 :=
  c8_no_cross_group_leakage ⟨[("g1", [0]), ("g2", [5])]⟩ 5 "g1" "g2"
    (Frame.message mW) noFail
    (fun g hg => by
      by_cases h1 : g = "g1"
      · subst h1
        simp [subsOf, mapGet] at hg
      · by_cases h2 : g = "g2"
        · exact h2
        · simp [subsOf, mapGet, Ne.symm h1, Ne.symm h2] at hg)
    (by decide)
    { conn := 0, frame := Frame.message mW, ok := true } (by decide)



/-- C2: once the transport close of `C` has been handled, `C` has been removed
from every group's subscriber set; and because the closed transport emits no
further frame or close event from `C` (the terminal `Closed` state, the
`ht` hypothesis), it can never be re-subscribed: after any such subsequent
trace it is still in no subscriber set, and no publish on any group attempts
a send to it. -/
theorem c2_disconnect_is_terminal (reg : Registry) (c : ConnId) (t : List Event)
    (hwf : WF reg) (ht : ∀ e ∈ t, eventFrom c e = false) :
    (∀ g, c ∉ subsOf (wsOnClose reg c) g) ∧
    (∀ g, c ∉ subsOf (run (wsOnClose reg c) t) g) ∧
    (∀ g p fails, ∀ a ∈ (broadcastToGroup (run (wsOnClose reg c) t) g p fails).2,
      a.conn ≠ c) := by
  have h1 : ∀ g, c ∉ subsOf (wsOnClose reg c) g := not_mem_subsOf_wsOnClose reg c hwf
  have h2 := not_mem_subsOf_run _ c t (wf_wsOnClose reg c hwf) ht h1
  refine ⟨h1, h2, ?_⟩
  intro g p fails a ha
  rw [broadcastToGroup_eq] at ha
  simp only [List.mem_map] at ha
  obtain ⟨c', hc', rfl⟩ := ha
  simp only [sendStep_eq]
  intro h
  rw [h] at hc'
  exact h2 g hc'

/-- Witness for C2: both subscribers of "g1" in `regW`, connection 0 closes. -/
theorem c2_witness :
    (∀ g, 0 ∉ subsOf (wsOnClose regW 0) g) ∧
    (∀ g, 0 ∉ subsOf (run (wsOnClose regW 0) []) g) ∧
    (∀ g p fails, ∀ a ∈ (broadcastToGroup (run (wsOnClose regW 0) []) g p fails).2,
      a.conn ≠ 0) :=
  c2_disconnect_is_terminal regW 0 [] (by constructor <;> decide)
    (fun e he => absurd he (List.not_mem_nil e))

/-- C5: Subscribe is idempotent: after `Subscribe(C,G)` the subscriber set for
`G` contains `C` exactly once, and a second identical subscribe leaves the
whole registry unchanged (it only re-sends the acknowledgment). -/
theorem c5_subscribe_idempotent (reg : Registry) (c : ConnId) (g : String)
    (hwf : WF reg) (hg : g ≠ "") :
    ((subsOf (wsOnMessage reg c (some (subFrame g))).1 g).count c = 1) ∧
    (wsOnMessage (wsOnMessage reg c (some (subFrame g))).1 c (some (subFrame g)) =
      ((wsOnMessage reg c (some (subFrame g))).1, [(c, Frame.subscribed g)])) := by
  have hs : subGuard (subFrame g) = true := by
    rw [subGuard_subFrame]
    simpa using hg
  have hsub := wsOnMessage_sub_eq reg c (subFrame g) hs
  rw [groupIdOf_subFrame] at hsub
  constructor
  · have hsame := subsOf_after_sub_same reg c (subFrame g) hs
    rw [groupIdOf_subFrame] at hsame
    rw [hsame]
    exact List.count_eq_one_of_mem (setAdd_nodup _ c (getD_nodup reg g hwf))
      (mem_setAdd_self _ c)
  · rw [hsub]
    have hsub2 := wsOnMessage_sub_eq
      ⟨mapSet reg.wsClients g (setAdd ((mapGet reg.wsClients g).getD []) c)⟩
      c (subFrame g) hs
    rw [groupIdOf_subFrame] at hsub2
    rw [hsub2]
    have hget : mapGet (mapSet reg.wsClients g
          (setAdd ((mapGet reg.wsClients g).getD []) c)) g =
        some (setAdd ((mapGet reg.wsClients g).getD []) c) :=
      mapGet_mapSet_same _ _ _
    rw [hget]
    simp only [Option.getD_some]
    rw [setAdd_of_mem _ c (mem_setAdd_self _ c), mapSet_self _ _ _ hget]

/-- Witness for C5 at the empty registry, connection 0, group "g1". -/
theorem c5_witness :
    ((subsOf (wsOnMessage emptyRegistry 0 (some (subFrame "g1"))).1 "g1").count 0 = 1) ∧
    (wsOnMessage (wsOnMessage emptyRegistry 0 (some (subFrame "g1"))).1 0
        (some (subFrame "g1")) =
      ((wsOnMessage emptyRegistry 0 (some (subFrame "g1"))).1,
        [(0, Frame.subscribed "g1")])) :=
  c5_subscribe_idempotent emptyRegistry 0 "g1" wf_empty (by decide)

/-- C9: the subscribe path performs no authorization or membership check: with
the ambient storage (membership state) swapped for any other, the handler's
outcome on a valid subscribe frame is identical — the connection is added to
the group's subscriber set and acknowledged regardless of membership. -/
theorem c9_subscribe_ignores_membership (st1 st2 : Store) (reg : Registry)
    (c : ConnId) (g : String) (hg : g ≠ "") :
    (wsOnMessageWithStore st1 reg c (some (subFrame g)) =
      wsOnMessageWithStore st2 reg c (some (subFrame g))) ∧
    c ∈ subsOf (wsOnMessageWithStore st1 reg c (some (subFrame g))).1 g ∧
    (wsOnMessageWithStore st1 reg c (some (subFrame g))).2 =
      [(c, Frame.subscribed g)] := by
  have hs : subGuard (subFrame g) = true := by
    rw [subGuard_subFrame]
    simpa using hg
  refine ⟨rfl, ?_, ?_⟩
  · show c ∈ subsOf (wsOnMessage reg c (some (subFrame g))).1 g
    have hsame := subsOf_after_sub_same reg c (subFrame g) hs
    rw [groupIdOf_subFrame] at hsame
    rw [hsame]
    exact mem_setAdd_self _ c
  · show (wsOnMessage reg c (some (subFrame g))).2 = [(c, Frame.subscribed g)]
    rw [wsOnMessage_sub_eq reg c (subFrame g) hs, groupIdOf_subFrame]

/-- Witness for C9: two stores disagreeing on membership of "u1", identical
subscribe outcome. -/
theorem c9_witness :
    (wsOnMessageWithStore stFailW emptyRegistry 0 (some (subFrame "g1")) =
      wsOnMessageWithStore stOkW emptyRegistry 0 (some (subFrame "g1"))) ∧
    0 ∈ subsOf (wsOnMessageWithStore stFailW emptyRegistry 0 (some (subFrame "g1"))).1 "g1" ∧
    (wsOnMessageWithStore stFailW emptyRegistry 0 (some (subFrame "g1"))).2 =
      [(0, Frame.subscribed "g1")] :=
  c9_subscribe_ignores_membership stFailW stOkW emptyRegistry 0 "g1" (by decide)



/-- C10: an acted-on unsubscribe removes the connection from the group's set
but never deletes the map entry itself, even when the set becomes empty;
the close handler, by contrast, deletes the entry of every group it empties;
and a publish to a group whose entry is absent or empty returns normally
with no delivery attempts. -/
theorem c10_empty_entry_handling (reg : Registry) (c : ConnId) (g : String)
    (s : List ConnId) (p : Frame) (fails : ConnId → Bool) (hwf : WF reg)
    (hg : g ≠ "") (hm : mapGet reg.wsClients g = some s) :
    (mapGet (wsOnMessage reg c (some (unsubFrame g))).1.wsClients g =
        some (setDelete s c)) ∧
    (c ∈ s → setDelete s c = [] → mapGet (wsOnClose reg c).wsClients g = none) ∧
    (∀ reg' : Registry,
      mapGet reg'.wsClients g = none ∨ mapGet reg'.wsClients g = some [] →
      broadcastToGroup reg' g p fails = (reg', [])) := by
  have hu : unsubGuard (unsubFrame g) = true := by
    rw [unsubGuard_unsubFrame]
    simpa using hg
  refine ⟨?_, ?_, ?_⟩
  · have hm' : mapGet reg.wsClients (groupIdOf (unsubFrame g)) = some s := by
      rw [groupIdOf_unsubFrame]
      exact hm
    rw [wsOnMessage_unsub_some_eq reg c (unsubFrame g) s hu hm', groupIdOf_unsubFrame]
    exact mapGet_mapSet_same _ _ _
  · intro hcs hdel
    rw [mapGet_wsOnClose reg c g hwf.2, hm]
    simp [closeEntry, hcs, hdel]
  · intro reg' h
    rw [broadcastToGroup_eq]
    rcases h with h | h <;> simp [subsOf, h]

/-- Witness for C10: connection 0 alone in "g1"; its unsubscribe leaves an
empty entry while its close deletes the entry. -/
theorem c10_witness :
    (mapGet (wsOnMessage regW1 0 (some (unsubFrame "g1"))).1.wsClients "g1" =
        some (setDelete [0] 0)) ∧
    (0 ∈ [0] → setDelete [0] 0 = [] →
      mapGet (wsOnClose regW1 0).wsClients "g1" = none) ∧
    (∀ reg' : Registry,
      mapGet reg'.wsClients "g1" = none ∨ mapGet reg'.wsClients "g1" = some [] →
      broadcastToGroup reg' "g1" (Frame.message mW) noFail = (reg', [])) :=
  c10_empty_entry_handling regW1 0 "g1" [0] (Frame.message mW) noFail
    (by constructor <;> decide) (by decide) (by decide)

/-- C4: on the write path, once the request has passed the group, membership
and content checks, a failing `storage.createMessage` short-circuits the
handler into the error response with no fan-out and no registry change —
`broadcastToGroup` runs only after the store has returned the persisted
message, and then with exactly that message. -/
theorem c4_no_publish_without_persistence (reg : Registry) (st : Store)
    (g u s : String) (grp : Group) (members : List GroupMember)
    (fails : ConnId → Bool) (hs : s ≠ "")
    (hgrp : st.getGroup g = .ok (some grp))
    (hmem : st.getGroupMembers g = .ok members)
    (his : (grp.ownerId == u || members.any (fun m => m.memberId == u)) = true) :
    (st.createMessage g u s = .error () →
      postGroupMessage reg st g u (.str s) fails =
        (reg, .badRequest "Failed to create message", [])) ∧
    (∀ m, st.createMessage g u s = .ok m →
      postGroupMessage reg st g u (.str s) fails =
        (reg, .created m, (subsOf reg g).map (sendStep fails (.message m)))) := by
  have hjs : jsToString (.str s) = s := by simp [jsToString]
  constructor
  · intro herr
    simp [postGroupMessage, hgrp, hmem, his, hjs, herr, Json.truthy, hs]
  · intro m hok
    simp [postGroupMessage, hgrp, hmem, his, hjs, hok, Json.truthy, hs,
      broadcastToGroup_eq]

/-- Witness for C4 at the always-failing and always-succeeding stores. -/
theorem c4_witness :
    (stFailW.createMessage "g1" "u1" "hi" = .error () →
      postGroupMessage regW1 stFailW "g1" "u1" (.str "hi") noFail =
        (regW1, .badRequest "Failed to create message", [])) ∧
    (∀ m, stFailW.createMessage "g1" "u1" "hi" = .ok m →
      postGroupMessage regW1 stFailW "g1" "u1" (.str "hi") noFail =
        (regW1, .created m, (subsOf regW1 "g1").map (sendStep noFail (.message m)))) :=
  c4_no_publish_without_persistence regW1 stFailW "g1" "u1" "hi" ⟨"g1", "u1"⟩ []
    noFail (by decide) rfl rfl (by decide)



/-- Counterexample to C6 as stated: the subscribe frame
`{"type":"subscribe","groupId":42}` carries a wrong-typed (non-string) group
identifier, yet it is not dropped: the handler coerces `42` to the string
`"42"`, adds the connection to that group's subscriber set and sends an
acknowledgment — the registry's subscription state is changed. -/
theorem c6_counterexample :
    wsOnMessage emptyRegistry 0
        (some (Json.obj [("type", Json.str "subscribe"), ("groupId", Json.num 42)])) ≠
      (emptyRegistry, []) := by
  decide

theorem droppedFrame_guards (j : Json) (h : droppedFrame (some j) = true) :
    subGuard j = false ∧ unsubGuard j = false := by
  cases ht : j.truthy <;> cases hsub : isType j "subscribe" <;>
    cases hunsub : isType j "unsubscribe" <;> cases hf : fieldTruthy j "groupId" <;>
    simp_all [droppedFrame, subGuard, unsubGuard]

/-- C6 amended: an inbound frame that is malformed JSON, has an unrecognized
shape, or is a subscribe/unsubscribe whose group identifier is missing or
falsy (absent, `null`, `false`, `0` or `""`) is dropped silently: the
registry is unchanged and nothing is sent back (the handler has no way to
close the connection), and a subsequent valid subscribe on the same
connection still succeeds. A truthy non-string group identifier, however,
is not dropped: it is coerced to a string and processed — see the
counterexample. -/
theorem c6_amended_malformed_dropped (reg : Registry) (c : ConnId) (d : Option Json)
    (g : String) (hg : g ≠ "") (hd : droppedFrame d = true) :
    wsOnMessage reg c d = (reg, []) ∧
    (subsOf (wsOnMessage (wsOnMessage reg c d).1 c (some (subFrame g))).1 g =
      setAdd (subsOf reg g) c) ∧
    ((wsOnMessage (wsOnMessage reg c d).1 c (some (subFrame g))).2 =
      [(c, Frame.subscribed g)]) := by
  have hs : subGuard (subFrame g) = true := by
    rw [subGuard_subFrame]
    simpa using hg
  have hdrop : wsOnMessage reg c d = (reg, []) := by
    match d with
    | none => rfl
    | some j =>
      obtain ⟨h1, h2⟩ := droppedFrame_guards j hd
      exact wsOnMessage_dropped_eq reg c j h1 h2
  refine ⟨hdrop, ?_, ?_⟩
  · rw [hdrop]
    have hsame := subsOf_after_sub_same reg c (subFrame g) hs
    rw [groupIdOf_subFrame] at hsame
    exact hsame
  · rw [hdrop, wsOnMessage_sub_eq reg c (subFrame g) hs, groupIdOf_subFrame]

/-- Witness for the amended C6 at scenario D's frame `{"type":"subscribe"}`
(missing `groupId`): dropped, then a valid subscribe for "g1" succeeds. -/
theorem c6_amended_witness :
    wsOnMessage emptyRegistry 0 (some (Json.obj [("type", Json.str "subscribe")])) =
      (emptyRegistry, []) ∧
    (subsOf (wsOnMessage (wsOnMessage emptyRegistry 0
          (some (Json.obj [("type", Json.str "subscribe")]))).1 0
        (some (subFrame "g1"))).1 "g1" =
      setAdd (subsOf emptyRegistry "g1") 0) ∧
    ((wsOnMessage (wsOnMessage emptyRegistry 0
          (some (Json.obj [("type", Json.str "subscribe")]))).1 0
        (some (subFrame "g1"))).2 =
      [(0, Frame.subscribed "g1")]) :=
  c6_amended_malformed_dropped emptyRegistry 0
    (some (Json.obj [("type", Json.str "subscribe")])) "g1" (by decide) (by decide)

end NextUp
